import Mathlib

/-!
# Verification of the amqp10-rpc client (`lib/client.js`) and error taxonomy (`lib/errors.js`)

A shallow embedding of the RPC client of the `amqp10-rpc` repository.
Pure computations (`lib/errors.js`) become Lean functions.  The stateful
client (`lib/client.js`, the `RpcClient` prototype) becomes explicit state
passing: each event handler of the source (message arrival, the two timers,
send failure, the `errorReceived` callback, `notify`) is a function from a
`ClientState` to a `StepResult`, recording the successor state, the list of
observable actions the handler performed (logger calls, promise
resolution/rejection, timer arming/cancelling, receiver detach, transport
sends) in source order, and whether the handler threw.

JavaScript values that the source only passes through are modelled by the
small inductive `JVal`; `undefined`/absent object properties are modelled by
`Option`.  The `options.logger` collaborator is assumed present (the spec
lists the logging sink as a required external collaborator); logger calls
are modelled as `log*` actions that always succeed.  The optional
`interceptor` hook and the variadic (`arguments.length > 2`) parameter
paths only affect the request body contents and are not exercised by any
property below; registration is modelled on the non-intercepted path.
-/

/-- A JavaScript value, as far as the client passes values through opaquely
(result payloads, transport errors, parameters). -/
inductive JVal where
  | undefined
  | null
  | bool (b : Bool)
  | int (n : Int)
  | str (s : String)
  deriving DecidableEq, Repr

/-- JavaScript truthiness for the values of `JVal`
(`undefined`, `null`, `false`, `0`, `""` are falsy). -/
def JVal.truthy : JVal → Bool
  | .undefined => false
  | .null => false
  | .bool b => b
  | .int n => n != 0
  | .str s => s != ""

/-- JS `x || d` for an optional number `x` (absent and `0` are falsy,
so both fall back to the default), as used by the `RpcClient` constructor
for `options.timeout` and `options.cleanupTimeout`. -/
def jsOrNat (x : Option Nat) (d : Nat) : Nat :=
  match x with
  | some n => if n = 0 then d else n
  | none => d

/-! ## `lib/errors.js` — the protocol error taxonomy -/

/-- `errors.ErrorCode.ParseError` -/
def ErrorCode.ParseError : Int := -32700
/-- `errors.ErrorCode.InvalidRequest` -/
def ErrorCode.InvalidRequest : Int := -32600
/-- `errors.ErrorCode.MethodNotFound` -/
def ErrorCode.MethodNotFound : Int := -32601
/-- `errors.ErrorCode.InvalidParams` -/
def ErrorCode.InvalidParams : Int := -32602
/-- `errors.ErrorCode.InternalError` -/
def ErrorCode.InternalError : Int := -32603

/-- A wire error object as it appears in a response body:
`{ code, message, data? }`.  The `data` payload is opaque; we keep it as an
optional string. -/
structure WireError where
  code : Int
  message : String
  data : Option String
  deriving DecidableEq, Repr

/-- Which `ProtocolError` subconstructor produced an error object: models
the prototype chain (`util.inherits`) of the constructed instance. -/
inductive ProtoKind where
  | parse
  | invalidRequest
  | methodNotFound
  | invalidParams
  | internal
  deriving DecidableEq, Repr

/-- A constructed protocol error instance: `errors.ProtocolError` and its
subconstructors set `code`, `message` and (when truthy) `data`, and mark
the instance operational (`isOperational`); `kind` records which
subconstructor was used. -/
structure ProtocolErrorObj where
  kind : ProtoKind
  code : Int
  message : String
  data : Option String
  deriving DecidableEq, Repr

/-- `errors.ProtocolError(code, message, data)`: `this.data` is only set
when `data` is truthy (`if (!!data) this.data = data`); an empty string is
falsy in JS. -/
def ProtocolError (kind : ProtoKind) (code : Int) (message : String)
    (data : Option String) : ProtocolErrorObj :=
  { kind := kind, code := code, message := message,
    data := match data with
            | some s => if s = "" then none else some s
            | none => none }

/-- `errors.ParseError(message, data)` -/
def ParseError (message : String) (data : Option String) : ProtocolErrorObj :=
  ProtocolError .parse ErrorCode.ParseError message data

/-- `errors.InvalidRequestError(message, data)` -/
def InvalidRequestError (message : String) (data : Option String) : ProtocolErrorObj :=
  ProtocolError .invalidRequest ErrorCode.InvalidRequest message data

/-- `errors.MethodNotFoundError(method, data)`: the message is
`'No such method: ' + method`. -/
def MethodNotFoundError (method : String) (data : Option String) : ProtocolErrorObj :=
  ProtocolError .methodNotFound ErrorCode.MethodNotFound
    ("No such method: " ++ method) data

/-- `errors.InvalidParamsError(message, data)` -/
def InvalidParamsError (message : String) (data : Option String) : ProtocolErrorObj :=
  ProtocolError .invalidParams ErrorCode.InvalidParams message data

/-- `errors.InternalError(message, data)` -/
def InternalError (message : String) (data : Option String) : ProtocolErrorObj :=
  ProtocolError .internal ErrorCode.InternalError message data

/-- The value returned by `errors.wrapProtocolError`: either a freshly
constructed `ProtocolError` instance (one of the five typed constructors),
or — on the `default` branch of the `switch` — the wire error object itself,
returned unchanged (`return err`), which is not a `ProtocolError` instance
and carries no `isOperational` marker. -/
inductive WrapResult where
  | inst (e : ProtocolErrorObj)
  | raw (e : WireError)
  deriving DecidableEq, Repr

/-- Does the wrap result denote a constructed `ProtocolError` instance
(`instanceof errors.ProtocolError`, `isOperational` present)? -/
def WrapResult.isProtocolInstance : WrapResult → Bool
  | .inst _ => true
  | .raw _ => false

/-- `errors.wrapProtocolError(err)`: select the subconstructor by
`err.code`; `new ErrorType()` (no arguments), then overwrite
`result.message = err.message` and `result.data = err.data`.  Unrecognized
codes take the `default` branch, `return err`. -/
def wrapProtocolError (err : WireError) : WrapResult :=
  if err.code = ErrorCode.ParseError then
    .inst { ParseError "undefined" none with message := err.message, data := err.data }
  else if err.code = ErrorCode.InvalidRequest then
    .inst { InvalidRequestError "undefined" none with message := err.message, data := err.data }
  else if err.code = ErrorCode.MethodNotFound then
    .inst { MethodNotFoundError "undefined" none with message := err.message, data := err.data }
  else if err.code = ErrorCode.InvalidParams then
    .inst { InvalidParamsError "undefined" none with message := err.message, data := err.data }
  else if err.code = ErrorCode.InternalError then
    .inst { InternalError "undefined" none with message := err.message, data := err.data }
  else
    .raw err

/-! ## Wire shapes seen by the client -/

/-- Message `properties` of an outgoing request/notification
(`replyTo`, `correlationId`). -/
structure ReqProperties where
  replyTo : Option String
  correlationId : Option String
  deriving DecidableEq, Repr

/-- Message `properties` of a delivered (incoming) message; the client only
reads `correlationId`.  `none` covers both `undefined` and `null` (the
source checks `=== undefined || === null`). -/
structure RespProperties where
  correlationId : Option String
  deriving DecidableEq, Repr

/-- One element of a batch (array) response body: an object possibly
carrying a `result` property and possibly an `error` property.  `some`
models `hasOwnProperty` returning true (a property present with value
`undefined` is `some .undef`). -/
structure BatchElem where
  result : Option JVal
  error : Option JVal
  deriving DecidableEq, Repr

/-- The body of a delivered response message: either an array (batch
response) or an object with optional `result` and `error` properties; a
present `error` is a wire error object. -/
inductive RespBody where
  | arr (elems : List BatchElem)
  | obj (result : Option JVal) (error : Option WireError)
  deriving DecidableEq, Repr

/-- A delivered message.  `properties = none` models a message that lacks a
`properties` object entirely. -/
structure Message where
  properties : Option RespProperties
  body : RespBody
  deriving DecidableEq, Repr

/-- `params` as placed into an outgoing request body: either a positional
array or a keyed plain object. -/
inductive BodyParams where
  | arr (vs : List JVal)
  | keyed (fields : List (String × JVal))
  deriving DecidableEq, Repr

/-- A raw request body supplied by the caller (`call`/`notify` first
argument when it is a plain object with a `method` property, or an array
batch).  The client passes it through opaquely as `body`. -/
inductive RawBody where
  | obj (method : String)
  | arrBatch (n : Nat)
  deriving DecidableEq, Repr

/-- The body of an outgoing message. -/
inductive OutBody where
  | methodCall (method : String) (params : Option BodyParams)
  | rawBody (r : RawBody)
  deriving DecidableEq, Repr

/-- An outgoing message/request handed to `sender.send`. -/
structure OutMessage where
  properties : Option ReqProperties
  headerTtl : Option Nat
  body : OutBody
  deriving DecidableEq, Repr

/-! ## Client state -/

/-- A `_requests` registry entry `{ resolve, reject, request, timeoutId }`.
`active = true` models `resolve`/`reject` being non-null callbacks (the
Pending state); `active = false` models both having been nulled out by the
timeout handler (TimedOut).  `timeoutId = true` models the entry having a
`timeoutId` own property (`hasOwnProperty('timeoutId')`). -/
structure Entry where
  active : Bool
  timeoutId : Bool
  request : OutMessage
  deriving DecidableEq, Repr

/-- Lookup in the registry (a JS plain-object map keyed by correlation id). -/
def lookupEntry (cid : String) : List (String × Entry) → Option Entry
  | [] => none
  | (k, v) :: rest => if k = cid then some v else lookupEntry cid rest

/-- JS `delete requests[cid]`. -/
def eraseKey (cid : String) : List (String × Entry) → List (String × Entry)
  | [] => []
  | (k, v) :: rest => if k = cid then eraseKey cid rest else (k, v) :: eraseKey cid rest

/-- JS `requests[cid] = e` (overwriting assignment). -/
def setEntry (cid : String) (e : Entry) (l : List (String × Entry)) :
    List (String × Entry) :=
  (cid, e) :: eraseKey cid l

/-- The state of one `RpcClient` instance.  `usedIds` is model bookkeeping
for the generated correlation ids (`uuid.v4()`): it records every id ever
registered, so that event validity can express that uuids never collide.
`receiverPresent` models `!!this._receiver` (a non-null `_receiver`);
`receiverAttached` models the reply link still being attached. -/
structure ClientState where
  requests : List (String × Entry)
  usedIds : List String
  receiverPresent : Bool
  receiverAttached : Bool
  timeoutMs : Nat
  cleanupTimeoutMs : Nat
  deriving DecidableEq, Repr

/-- Constructor options (`logger`, `responseAddress` and `interceptor` are
not modelled; see the file header). -/
structure Options where
  timeout : Option Nat
  cleanupTimeout : Option Nat
  deriving DecidableEq, Repr

/-- The `RpcClient` constructor: `this._requests = {}`,
`this._timeout = options.timeout || 5000`,
`this._cleanupTimeout = options.cleanupTimeout || 15 * 60 * 1000`. -/
def mkClient (opts : Options) : ClientState :=
  { requests := []
    usedIds := []
    receiverPresent := false
    receiverAttached := false
    timeoutMs := jsOrNat opts.timeout 5000
    cleanupTimeoutMs := jsOrNat opts.cleanupTimeout (15 * 60 * 1000) }

/-! ## Observable actions and step results -/

/-- The value a pending promise is resolved with. -/
inductive RespVal where
  | single (v : JVal)
  | batch (vs : List JVal)
  deriving DecidableEq, Repr

/-- The reason a pending promise is rejected with. -/
inductive RejectReason where
  | protocolErr (w : WrapResult)
  | rawMessage (m : Message)
  | requestTimeout
  | transport (e : JVal)
  deriving DecidableEq, Repr

/-- An observable action performed by a handler, in source order. -/
inductive Act where
  | detach
  | send (m : OutMessage)
  | resolveReq (cid : String) (v : RespVal)
  | rejectReq (cid : String) (r : RejectReason)
  | logError (msg : String)
  | logInfo (msg : String)
  | logTrace (msg : String)
  | armCall (cid : String) (delayMs : Nat)
  | armCleanup (cid : String) (delayMs : Nat)
  | cancelTimer (cid : String)
  deriving DecidableEq, Repr

/-- An exception thrown out of a handler. -/
inductive Thrown where
  | typeError (msg : String)
  | badRequest (msg : String)
  deriving DecidableEq, Repr

/-- The result of running one handler: the successor client state, the
actions performed before returning or throwing, and the exception thrown,
if any. -/
structure StepResult where
  state : ClientState
  actions : List Act
  thrown : Option Thrown
  deriving DecidableEq, Repr

/-- Is the action an invocation of a pending promise's `resolve` or
`reject` callback? -/
def isSettleAct : Act → Bool
  | .resolveReq _ _ => true
  | .rejectReq _ _ => true
  | _ => false

/-- Is the action an invocation of a `reject` callback? -/
def isRejectAct : Act → Bool
  | .rejectReq _ _ => true
  | _ => false

/-- The `properties` of each message handed to `sender.send` by the step,
in order. -/
def sentProps (r : StepResult) : List (Option ReqProperties) :=
  r.actions.filterMap fun a =>
    match a with
    | .send m => some m.properties
    | _ => none

/-- Does the step emit a receiver `detach()` call? -/
def hasDetachAct (r : StepResult) : Bool :=
  r.actions.any fun a =>
    match a with
    | .detach => true
    | _ => false

/-! ## `RpcClient.prototype._processMessage` -/

/-- The map applied to each element of a batch (array) response body:
`r.hasOwnProperty('result') ? r.result : r.hasOwnProperty('error') ? r.error : undefined`. -/
def batchElemValue (b : BatchElem) : JVal :=
  match b.result with
  | some v => v
  | none =>
    match b.error with
    | some v => v
    | none => .undefined

/-- The `logger.info` message of the response-after-timeout branch. -/
def afterTimeoutInfoMsg : String :=
  "amqp10-rpc/_processMessage: received response after timeout (enabled trace to see more details)"

/-- The `logger.trace` message of the response-after-timeout branch (the
structured `request`/`data` payload of the trace call is elided). -/
def afterTimeoutTraceMsg : String :=
  "amqp10-rpc/_processMessage: received response after timeout, trace data"

/-- `RpcClient.prototype._processMessage(message)`.  The handler first calls
`this._receiver.detach()`, then reads `message.properties.correlationId`:
when the message has no `properties` object at all, that property access
throws a TypeError (reading `correlationId` of `undefined`).  Otherwise it
takes, in order: the missing-correlation-id log branch, the
unknown-correlation-id log branch, the response-after-timeout branch
(`request.resolve === null`: log, delete the entry, return — note the
armed cleanup timer is not cancelled), and finally the settlement branch
(cancel the call timer if the entry has one, resolve a batch or a
`result`, reject a wire `error` through `wrapProtocolError`, or reject
with the raw message; then delete the entry). -/
def processMessage (st : ClientState) (msg : Message) : StepResult :=
  match msg.properties with
  | none =>
    { state := { st with receiverAttached := false }
      actions := [.detach]
      thrown := some (.typeError "cannot read correlationId of undefined") }
  | some props =>
    match props.correlationId with
    | none =>
      { state := { st with receiverAttached := false }
        actions := [.detach, .logError "message lacks correlation-id"]
        thrown := none }
    | some cid =>
      match lookupEntry cid st.requests with
      | none =>
        { state := { st with receiverAttached := false }
          actions := [.detach, .logError ("invalid correlation-id: " ++ cid)]
          thrown := none }
      | some entry =>
        if entry.active = false then
          { state := { st with receiverAttached := false
                               requests := eraseKey cid st.requests }
            actions := [.detach, .logInfo afterTimeoutInfoMsg,
                        .logTrace afterTimeoutTraceMsg]
            thrown := none }
        else
          let clearActs : List Act :=
            if entry.timeoutId then [.cancelTimer cid] else []
          let settleAct : Act :=
            match msg.body with
            | .arr elems => .resolveReq cid (.batch (elems.map batchElemValue))
            | .obj result error =>
              match result with
              | some v => .resolveReq cid (.single v)
              | none =>
                match error with
                | some werr => .rejectReq cid (.protocolErr (wrapProtocolError werr))
                | none => .rejectReq cid (.rawMessage msg)
          { state := { st with receiverAttached := false
                               requests := eraseKey cid st.requests }
            actions := [.detach] ++ clearActs ++ [settleAct]
            thrown := none }

/-! ## The timers armed by `RpcClient.prototype._sendRequest` -/

/-- The value read for the cleanup delay by the call-timeout callback:
the source passes `this._cleanupTimeout` to the inner `setTimeout`, but the
callback is a plain `function` invoked by the timer machinery, so `this` is
the timer object (Node binds timer callbacks to the `Timeout` instance),
not the client; the `Timeout` instance has no `_cleanupTimeout` property,
so the read yields `undefined`. -/
def timerThisCleanupTimeout : Option Nat := none

/-- Node `setTimeout` delay coercion: a delay that is `undefined` (or `0`,
or otherwise not in `[1, 2^31 - 1]`) is replaced by `1` millisecond. -/
def nodeSetTimeoutDelay (d : Option Nat) : Nat :=
  match d with
  | some n => if n = 0 then 1 else n
  | none => 1

/-- The call-timeout callback armed by `_sendRequest` (the outer
`setTimeout(..., self._timeout)` body): if the registry still has the
entry, invoke its `reject` with a `RequestTimeoutError`, null out
`resolve` and `reject`, and arm the cleanup timer whose delay is the
(buggy) `this._cleanupTimeout` read, coerced by `setTimeout`. -/
def onCallTimeout (st : ClientState) (cid : String) : StepResult :=
  match lookupEntry cid st.requests with
  | none => { state := st, actions := [], thrown := none }
  | some entry =>
    { state := { st with
        requests := setEntry cid { entry with active := false, timeoutId := true }
                      st.requests }
      actions := [.rejectReq cid .requestTimeout,
                  .armCleanup cid (nodeSetTimeoutDelay timerThisCleanupTimeout)]
      thrown := none }

/-- The cleanup-timeout callback armed by the call-timeout callback:
`delete self._requests[correlator]`, unconditionally. -/
def onCleanupFire (st : ClientState) (cid : String) : StepResult :=
  { state := { st with requests := eraseKey cid st.requests }
    actions := []
    thrown := none }

/-- The `.catch` handler attached to `self._sender.send(request)` in
`_sendRequest`: `clearTimeout(self._requests[correlator].timeoutId)` (a
TypeError when the entry has already been removed), then
`delete self._requests[correlator]`, then `reject(err)` through the
promise-executor closure. -/
def onSendFailure (st : ClientState) (cid : String) (err : JVal) : StepResult :=
  match lookupEntry cid st.requests with
  | none =>
    { state := st, actions := []
      thrown := some (.typeError "cannot read timeoutId of undefined") }
  | some entry =>
    { state := { st with requests := eraseKey cid st.requests }
      actions := (if entry.timeoutId then [.cancelTimer cid] else [])
                   ++ [.rejectReq cid (.transport err)]
      thrown := none }

/-- The synchronous registration part of `_sendRequest` (non-intercepted
path): `self._requests[correlator] = { resolve, reject, request }`, arm the
call timer with `self._timeout`, and hand the request to
`self._sender.send`.  `usedIds` additionally records the correlation id
(model bookkeeping for `uuid.v4()` freshness). -/
def registerRequest (st : ClientState) (cid : String) (req : OutMessage) : StepResult :=
  { state := { st with
      requests := setEntry cid { active := true, timeoutId := true, request := req }
                    st.requests
      usedIds := cid :: st.usedIds }
    actions := [.armCall cid st.timeoutMs, .send req]
    thrown := none }

/-! ## The `errorReceived` callback registered by `RpcClient.prototype.call` -/

/-- The property the `errorReceived` handler reads: `self.requests`.  The
`RpcClient` constructor only ever assigns `this._requests`; no code in the
repository assigns a `requests` property, so this access yields
`undefined`. -/
def selfDotRequests (_st : ClientState) : Option (List (String × Entry)) := none

/-- JS `Object.keys(x)`: throws a TypeError when `x` is `undefined`. -/
def objectKeys (x : Option (List (String × Entry))) :
    Except Thrown (List String) :=
  match x with
  | none => .error (.typeError "Object.keys called on undefined")
  | some l => .ok (l.map Prod.fst)

/-- The loop body of the `errorReceived` handler, run over the keys it
obtained: `self._requests[key].reject(err); delete self._requests[key];
self._receiver.detach();` per key. -/
def errorReceivedLoop (err : JVal) :
    List String → List (String × Entry) → List (String × Entry) × List Act
  | [], reqs => (reqs, [])
  | k :: rest, reqs =>
    let step := errorReceivedLoop err rest (eraseKey k reqs)
    (step.1, [Act.rejectReq k (.transport err), Act.detach] ++ step.2)

/-- `receiver.on('errorReceived', function(err) { ... })` as registered by
`RpcClient.prototype.call`: it first evaluates
`Object.keys(self.requests)` — which throws, since `self.requests` is
`undefined` (the registry lives in `self._requests`) — so the
reject/delete/detach loop is never reached and the state is untouched. -/
def onErrorReceived (st : ClientState) (err : JVal) : StepResult :=
  match objectKeys (selfDotRequests st) with
  | .error t => { state := st, actions := [], thrown := some t }
  | .ok keys =>
    let looped := errorReceivedLoop err keys st.requests
    { state := { st with requests := looped.1, receiverAttached := false }
      actions := looped.2
      thrown := none }

/-! ## `RpcClient.prototype.notify` -/

/-- The first argument of `notify`: either a method-name string, or a raw
request (a plain object with a `method` own property, or an array batch) —
exactly the inputs the source guard
`u.isPlainObject(method) && method.hasOwnProperty('method') || Array.isArray(method)`
discriminates. -/
inductive MethodArg where
  | name (s : String)
  | raw (rb : RawBody)
  deriving DecidableEq, Repr

/-- The second argument of `notify`: absent, a plain object (read as the
link/message overrides on the raw path — its `properties` field — and as
keyed `params` on the named path), or a non-object value. -/
inductive SecondArg where
  | absent
  | plainObj (props : Option ReqProperties) (fields : List (String × JVal))
  | prim (v : JVal)
  deriving DecidableEq, Repr

/-- `u.isPlainObject(params) ? params : [ params ]` guarded by `!!params`,
as used to build `request.body.params` on the named (method-string) path. -/
def bodyParamsOf : SecondArg → Option BodyParams
  | .absent => none
  | .plainObj _ fields => some (.keyed fields)
  | .prim v => if v.truthy then some (.arr [v]) else none

/-- JS `!!x` for an optional string property. -/
def truthyOptStr : Option String → Bool
  | some s => s != ""
  | none => false

/-- The `properties` the raw-path notification object carries: those of the
overrides object when the second argument is a plain object
(`if (u.isPlainObject(params)) notification = params`), else none
(`notification = {}`). -/
def overridesPropsOf : SecondArg → Option ReqProperties
  | .plainObj props _ => props
  | _ => none

/-- `RpcClient.prototype.notify(method, params)` (two-argument form).  Raw
path: build the notification from the overrides, set `notification.body`,
throw `BadRequestError('notify must not have a replyTo')` when the
notification has a `properties` own property with a truthy `replyTo`, else
send it.  Named path: build `{ body: { method, params? } }` (no
`properties` at all), run `!!this._receiver && this._receiver.detach()`,
and send.  Neither path touches `this._requests`. -/
def notify (st : ClientState) (m : MethodArg) (p : SecondArg) : StepResult :=
  match m with
  | .raw rb =>
    let props := overridesPropsOf p
    let hasProps : Bool := props.isSome
    if hasProps && truthyOptStr ((props.getD { replyTo := none, correlationId := none }).replyTo) then
      { state := st, actions := []
        thrown := some (.badRequest "notify must not have a replyTo") }
    else
      { state := st
        actions := [.send { properties := props, headerTtl := none, body := .rawBody rb }]
        thrown := none }
  | .name s =>
    let outMsg : OutMessage :=
      { properties := none, headerTtl := none
        body := .methodCall s (bodyParamsOf p) }
    if st.receiverPresent then
      { state := { st with receiverAttached := false }
        actions := [.detach, .send outMsg]
        thrown := none }
    else
      { state := st, actions := [.send outMsg], thrown := none }

/-! ## Event system: interleaved asynchronous continuations

The client runs single-threaded (spec §5); an execution is a sequence of
handler activations.  `validEvent` captures when an activation can really
occur: a registration uses a fresh `uuid.v4()` correlation id (`usedIds`),
and the call timer for an id can only fire while it is armed and
uncleared — which is exactly while the entry is present and still active,
since registration arms it and every path that deactivates or removes the
entry either consumes the timer (the firing itself) or clears it first.
The cleanup timer and a send-failure continuation are left unconstrained:
their handlers act correctly (as the source does) even when stale. -/

inductive Event where
  | doCall (cid : String) (req : OutMessage)
  | msgArrive (m : Message)
  | callTimeoutFire (cid : String)
  | cleanupFire (cid : String)
  | sendFail (cid : String) (err : JVal)
  | errorReceived (err : JVal)
  deriving DecidableEq, Repr

/-- Dispatch one event to its handler. -/
def step (st : ClientState) : Event → StepResult
  | .doCall cid req => registerRequest st cid req
  | .msgArrive m => processMessage st m
  | .callTimeoutFire cid => onCallTimeout st cid
  | .cleanupFire cid => onCleanupFire st cid
  | .sendFail cid err => onSendFailure st cid err
  | .errorReceived err => onErrorReceived st err

/-- Is the registry entry for `cid` present and still Pending
(`resolve`/`reject` not nulled)? -/
def entryActive (st : ClientState) (cid : String) : Bool :=
  match lookupEntry cid st.requests with
  | some e => e.active
  | none => false

/-- When an event can occur (see the section comment). -/
def validEvent (st : ClientState) : Event → Bool
  | .doCall cid _ => !(st.usedIds.contains cid)
  | .callTimeoutFire cid => entryActive st cid
  | _ => true

/-- A valid interleaving of handler activations from a given state. -/
def validTrace (st : ClientState) : List Event → Bool
  | [] => true
  | e :: es => validEvent st e && validTrace (step st e).state es

/-- How many steps of the trace move the entry for `cid` out of the
Pending state (present-and-active before, not so after): the number of
times anything — a settlement or the timeout firing — transitions the
entry away from Pending. -/
def pendingExits (st : ClientState) (cid : String) : List Event → Nat
  | [] => 0
  | e :: es =>
    (if entryActive st cid && !(entryActive (step st e).state cid) then 1 else 0)
      + pendingExits (step st e).state cid es

/-! ## Registry lemmas -/

theorem lookupEntry_eraseKey (c x : String) (l : List (String × Entry)) :
    lookupEntry x (eraseKey c l) = if x = c then none else lookupEntry x l := by
  induction l with
  | nil => simp [eraseKey, lookupEntry]
  | cons kv rest ih =>
    obtain ⟨k, v⟩ := kv
    by_cases hkc : k = c
    · by_cases hxc : x = c
      · simp only [eraseKey, if_pos hkc, ih, if_pos hxc]
      · have hkx : ¬ k = x := fun h => hxc (h ▸ hkc)
        simp only [eraseKey, if_pos hkc, ih, if_neg hxc, lookupEntry, if_neg hkx]
    · by_cases hkx : k = x
      · have hxc : ¬ x = c := fun h => hkc (hkx.trans h)
        simp only [eraseKey, if_neg hkc, lookupEntry, if_pos hkx, if_neg hxc]
      · simp only [eraseKey, if_neg hkc, lookupEntry, if_neg hkx, ih]

theorem lookupEntry_setEntry (c x : String) (e : Entry) (l : List (String × Entry)) :
    lookupEntry x (setEntry c e l) = if x = c then some e else lookupEntry x l := by
  by_cases h : x = c
  · simp [setEntry, lookupEntry, h]
  · have hcx : ¬ c = x := fun hh => h hh.symm
    simp [setEntry, lookupEntry, hcx, lookupEntry_eraseKey, h]

theorem entryActive_def (st : ClientState) (cid : String) :
    entryActive st cid = ((lookupEntry cid st.requests).map Entry.active).getD false := by
  unfold entryActive
  cases lookupEntry cid st.requests <;> rfl

/-! ## Per-handler characterizations used by the Pending-exit invariant -/

theorem processMessage_requests (st : ClientState) (m : Message) :
    (processMessage st m).state.requests = st.requests ∨
      ∃ c, (processMessage st m).state.requests = eraseKey c st.requests := by
  unfold processMessage
  repeat' split
  all_goals first
    | exact Or.inl rfl
    | exact Or.inr ⟨_, rfl⟩

theorem processMessage_usedIds (st : ClientState) (m : Message) :
    (processMessage st m).state.usedIds = st.usedIds := by
  unfold processMessage
  repeat' split
  all_goals rfl

theorem onCallTimeout_active (st : ClientState) (cid x : String)
    (hx : entryActive (onCallTimeout st cid).state x = true) :
    entryActive st x = true := by
  unfold onCallTimeout at hx
  split at hx
  · exact hx
  · rename_i entry heq
    rw [entryActive_def] at hx ⊢
    rw [show ({ st with
          requests := setEntry cid { entry with active := false, timeoutId := true }
            st.requests } : ClientState).requests
        = setEntry cid { entry with active := false, timeoutId := true } st.requests
        from rfl, lookupEntry_setEntry] at hx
    by_cases hxc : x = cid
    · rw [if_pos hxc] at hx
      simp at hx
    · rw [if_neg hxc] at hx
      exact hx

theorem onCallTimeout_usedIds (st : ClientState) (cid : String) :
    (onCallTimeout st cid).state.usedIds = st.usedIds := by
  unfold onCallTimeout
  split <;> rfl

theorem onSendFailure_requests (st : ClientState) (cid : String) (err : JVal) :
    (onSendFailure st cid err).state.requests = st.requests ∨
      ∃ c, (onSendFailure st cid err).state.requests = eraseKey c st.requests := by
  unfold onSendFailure
  split
  · exact Or.inl rfl
  · exact Or.inr ⟨cid, rfl⟩

theorem onSendFailure_usedIds (st : ClientState) (cid : String) (err : JVal) :
    (onSendFailure st cid err).state.usedIds = st.usedIds := by
  unfold onSendFailure
  split <;> rfl

theorem onErrorReceived_state (st : ClientState) (err : JVal) :
    (onErrorReceived st err).state = st := rfl

/-- An entry that is absent or inactive stays so under unchanged or erased
registries. -/
theorem active_of_requests_cases (st st' : ClientState) (x : String)
    (h : st'.requests = st.requests ∨ ∃ c, st'.requests = eraseKey c st.requests)
    (hx : entryActive st' x = true) : entryActive st x = true := by
  rw [entryActive_def] at hx ⊢
  rcases h with h | ⟨c, h⟩
  · rw [h] at hx
    exact hx
  · rw [h, lookupEntry_eraseKey] at hx
    by_cases hxc : x = c
    · rw [if_pos hxc] at hx
      simp at hx
    · rw [if_neg hxc] at hx
      exact hx

/-! ## The Pending-exit invariant -/

/-- Every registered (present) active entry uses a correlation id that was
generated by a registration. -/
def wfState (st : ClientState) : Prop :=
  ∀ x, entryActive st x = true → x ∈ st.usedIds

theorem wfState_mkClient (opts : Options) : wfState (mkClient opts) := by
  intro x hx
  simp [entryActive, mkClient, lookupEntry] at hx

theorem step_usedIds (st : ClientState) (e : Event) :
    (step st e).state.usedIds = st.usedIds ∨
      ∃ c, (step st e).state.usedIds = c :: st.usedIds := by
  cases e with
  | doCall cid req => exact Or.inr ⟨cid, rfl⟩
  | msgArrive m => exact Or.inl (processMessage_usedIds st m)
  | callTimeoutFire cid => exact Or.inl (onCallTimeout_usedIds st cid)
  | cleanupFire cid => exact Or.inl rfl
  | sendFail cid err => exact Or.inl (onSendFailure_usedIds st cid err)
  | errorReceived err => exact Or.inl (congrArg ClientState.usedIds (onErrorReceived_state st err))

theorem usedIds_mono (st : ClientState) (e : Event) (x : String)
    (hx : x ∈ st.usedIds) : x ∈ (step st e).state.usedIds := by
  rcases step_usedIds st e with h | ⟨c, h⟩
  · rw [h]; exact hx
  · rw [h]; exact List.mem_cons_of_mem _ hx

/-- No handler ever (re)activates an entry, except a registration with a
fresh correlation id. -/
theorem step_stays_inactive (st : ClientState) (e : Event) (x : String)
    (hv : validEvent st e = true)
    (hin : entryActive st x = false)
    (hu : x ∈ st.usedIds) :
    entryActive (step st e).state x = false := by
  cases e with
  | doCall cid req =>
    have hfresh : ¬ (st.usedIds.contains cid = true) := by
      simpa [validEvent] using hv
    have hne : ¬ x = cid := by
      intro h
      exact hfresh (List.elem_eq_true_of_mem (h ▸ hu))
    rw [entryActive_def]
    rw [show (step st (.doCall cid req)).state.requests
        = setEntry cid { active := true, timeoutId := true, request := req } st.requests
        from rfl, lookupEntry_setEntry, if_neg hne]
    rw [entryActive_def] at hin
    exact hin
  | msgArrive m =>
    cases hh : entryActive (step st (.msgArrive m)).state x with
    | false => rfl
    | true =>
      have := active_of_requests_cases st _ x (processMessage_requests st m) hh
      rw [this] at hin
      exact hin
  | callTimeoutFire cid =>
    cases hh : entryActive (step st (.callTimeoutFire cid)).state x with
    | false => rfl
    | true =>
      have := onCallTimeout_active st cid x hh
      rw [this] at hin
      exact hin
  | cleanupFire cid =>
    cases hh : entryActive (step st (.cleanupFire cid)).state x with
    | false => rfl
    | true =>
      have := active_of_requests_cases st _ x (Or.inr ⟨cid, rfl⟩) hh
      rw [this] at hin
      exact hin
  | sendFail cid err =>
    cases hh : entryActive (step st (.sendFail cid err)).state x with
    | false => rfl
    | true =>
      have := active_of_requests_cases st _ x (onSendFailure_requests st cid err) hh
      rw [this] at hin
      exact hin
  | errorReceived err =>
    rw [show (step st (.errorReceived err)).state = st from onErrorReceived_state st err]
    exact hin

theorem wfState_step (st : ClientState) (e : Event)
    (hwf : wfState st) (hv : validEvent st e = true) :
    wfState (step st e).state := by
  intro x hx
  cases e with
  | doCall cid req =>
    by_cases hxc : x = cid
    · rw [show (step st (.doCall cid req)).state.usedIds = cid :: st.usedIds from rfl, hxc]
      exact List.mem_cons_self _ _
    · rw [entryActive_def] at hx
      rw [show (step st (.doCall cid req)).state.requests
          = setEntry cid { active := true, timeoutId := true, request := req } st.requests
          from rfl, lookupEntry_setEntry, if_neg hxc] at hx
      rw [show (step st (.doCall cid req)).state.usedIds = cid :: st.usedIds from rfl]
      exact List.mem_cons_of_mem _ (hwf x (by rw [entryActive_def]; exact hx))
  | msgArrive m =>
    show x ∈ (processMessage st m).state.usedIds
    rw [processMessage_usedIds st m]
    exact hwf x (active_of_requests_cases st _ x (processMessage_requests st m) hx)
  | callTimeoutFire cid =>
    show x ∈ (onCallTimeout st cid).state.usedIds
    rw [onCallTimeout_usedIds st cid]
    exact hwf x (onCallTimeout_active st cid x hx)
  | cleanupFire cid =>
    exact hwf x (active_of_requests_cases st _ x (Or.inr ⟨cid, rfl⟩) hx)
  | sendFail cid err =>
    show x ∈ (onSendFailure st cid err).state.usedIds
    rw [onSendFailure_usedIds st cid err]
    exact hwf x (active_of_requests_cases st _ x (onSendFailure_requests st cid err) hx)
  | errorReceived err =>
    rw [show (step st (.errorReceived err)).state = st from onErrorReceived_state st err] at hx
    exact hwf x hx

/-- Once an entry is out of the Pending state, no later step of a valid
trace moves one out again for the same correlation id. -/
theorem pendingExits_zero (st : ClientState) (cid : String) (tr : List Event)
    (hv : validTrace st tr = true)
    (hin : entryActive st cid = false)
    (hu : cid ∈ st.usedIds) :
    pendingExits st cid tr = 0 := by
  induction tr generalizing st with
  | nil => rfl
  | cons e es ih =>
    rw [validTrace, Bool.and_eq_true] at hv
    have h2 := ih _ hv.2 (step_stays_inactive st e cid hv.1 hin hu) (usedIds_mono st e cid hu)
    simp [pendingExits, hin, h2]

/-- In any valid trace of the client, each correlation id's entry leaves
the Pending state at most once. -/
theorem pendingExits_le_one (st : ClientState) (cid : String) (tr : List Event)
    (hwf : wfState st) (hv : validTrace st tr = true) :
    pendingExits st cid tr ≤ 1 := by
  induction tr generalizing st with
  | nil => exact Nat.zero_le 1
  | cons e es ih =>
    rw [validTrace, Bool.and_eq_true] at hv
    obtain ⟨hve, hvt⟩ := hv
    have hwf' := wfState_step st e hwf hve
    rw [pendingExits]
    cases hact : entryActive st cid with
    | false =>
      simpa [hact] using ih _ hwf' hvt
    | true =>
      cases hact' : entryActive (step st e).state cid with
      | true =>
        simpa [hact, hact'] using ih _ hwf' hvt
      | false =>
        have h0 : pendingExits (step st e).state cid es = 0 :=
          pendingExits_zero _ _ _ hvt hact' (usedIds_mono st e cid (hwf cid hact))
        simp [hact, hact', h0]

/-! ## Concrete fixtures used by witnesses and counterexamples -/

/-- A registered wire request, as `call` builds one. -/
def sampleReq : OutMessage :=
  { properties := some { replyTo := some "resp.addr", correlationId := some "c1" }
    headerTtl := some 5000
    body := .methodCall "echo" (some (.arr [.int 42])) }

/-- A default-configured client with one Pending entry for id `c1`. -/
def stPending : ClientState :=
  { requests := [("c1", { active := true, timeoutId := true, request := sampleReq })]
    usedIds := ["c1"]
    receiverPresent := true
    receiverAttached := true
    timeoutMs := 5000
    cleanupTimeoutMs := 900000 }

/-- The same client after the call timeout for `c1` fired
(`resolve`/`reject` nulled). -/
def stTimedOut : ClientState :=
  { stPending with
      requests := [("c1", { active := false, timeoutId := true, request := sampleReq })] }

/-- C2: when the reply receiver's `errorReceived` callback fires, the
handler evaluates `Object.keys(self.requests)`; `self.requests` is
`undefined` (the registry is `self._requests`), so the handler throws a
TypeError: the pending request `c1` is not rejected, nothing is detached,
and the registry is left untouched — contradicting the claim that every
pending request is rejected and the registry emptied. -/
theorem claim2_error_received_handler_throws :
    (onErrorReceived stPending (.str "link failure")).thrown =
      some (.typeError "Object.keys called on undefined") ∧
    (onErrorReceived stPending (.str "link failure")).state = stPending ∧
    (onErrorReceived stPending (.str "link failure")).actions = [] ∧
    lookupEntry "c1" (onErrorReceived stPending (.str "link failure")).state.requests =
      some { active := true, timeoutId := true, request := sampleReq } := by
  decide

/-- C3: when the call timeout fires on a default-configured client, the
entry is rejected with `RequestTimeoutError` and its callbacks nulled as
claimed, but the cleanup timer is armed with delay `1` ms — the callback
reads `this._cleanupTimeout` with `this` bound to the timer object, so the
configured 15-minute window (900000 ms) is never used — and the cleanup
firing (one millisecond later) removes the entry immediately. -/
theorem claim3_cleanup_timer_delay_is_not_configured :
    (onCallTimeout stPending "c1").actions =
      [Act.rejectReq "c1" RejectReason.requestTimeout, Act.armCleanup "c1" 1] ∧
    stPending.cleanupTimeoutMs = 900000 ∧
    nodeSetTimeoutDelay timerThisCleanupTimeout ≠ stPending.cleanupTimeoutMs ∧
    entryActive (onCallTimeout stPending "c1").state "c1" = false ∧
    lookupEntry "c1" (onCallTimeout stPending "c1").state.requests =
      some { active := false, timeoutId := true, request := sampleReq } ∧
    (onCleanupFire (onCallTimeout stPending "c1").state "c1").state.requests = [] := by
  decide

/-- C7: when the transport send fails while the request is still Pending,
the `.catch` handler cancels the armed timer, deletes the registry entry,
and rejects the promise with exactly the transport error. -/
theorem claim7_send_failure_unregisters (st : ClientState) (cid : String)
    (e : Entry) (err : JVal)
    (h1 : lookupEntry cid st.requests = some e) (h2 : e.active = true) :
    (onSendFailure st cid err).thrown = none ∧
    (onSendFailure st cid err).actions =
      (if e.timeoutId then [Act.cancelTimer cid] else [])
        ++ [Act.rejectReq cid (.transport err)] ∧
    lookupEntry cid (onSendFailure st cid err).state.requests = none := by
  have hsf : onSendFailure st cid err =
      { state := { st with requests := eraseKey cid st.requests }
        actions := (if e.timeoutId then [Act.cancelTimer cid] else [])
                     ++ [Act.rejectReq cid (.transport err)]
        thrown := none } := by
    unfold onSendFailure
    rw [h1]
  refine ⟨by rw [hsf], by rw [hsf], ?_⟩
  rw [hsf]
  show lookupEntry cid (eraseKey cid st.requests) = none
  rw [lookupEntry_eraseKey, if_pos rfl]

theorem claim7_send_failure_unregisters_witness :
    (onSendFailure stPending "c1" (.str "send refused")).thrown = none ∧
    (onSendFailure stPending "c1" (.str "send refused")).actions =
      [Act.cancelTimer "c1", Act.rejectReq "c1" (.transport (.str "send refused"))] ∧
    lookupEntry "c1" (onSendFailure stPending "c1" (.str "send refused")).state.requests
      = none := by
  have h := claim7_send_failure_unregisters stPending "c1"
    { active := true, timeoutId := true, request := sampleReq }
    (.str "send refused") (by decide) rfl
  exact ⟨h.1, h.2.1, h.2.2⟩

/-- C8: the five protocol error constructors carry exactly the fixed
JSON-RPC codes, and `MethodNotFoundError(n)` carries the message
`No such method: n`. -/
theorem claim8_error_codes_fixed (n : String) (d : Option String) :
    ErrorCode.ParseError = -32700 ∧
    ErrorCode.InvalidRequest = -32600 ∧
    ErrorCode.MethodNotFound = -32601 ∧
    ErrorCode.InvalidParams = -32602 ∧
    ErrorCode.InternalError = -32603 ∧
    (ParseError n d).code = -32700 ∧
    (InvalidRequestError n d).code = -32600 ∧
    (MethodNotFoundError n d).code = -32601 ∧
    (InvalidParamsError n d).code = -32602 ∧
    (InternalError n d).code = -32603 ∧
    (MethodNotFoundError n d).message = "No such method: " ++ n :=
  ⟨rfl, rfl, rfl, rfl, rfl, rfl, rfl, rfl, rfl, rfl, rfl⟩

/-- C9: `notify` on the method-name path tears the reply link down: when a
receiver exists it is detached before the notification is sent, while the
pending-request registry is untouched (so a concurrently pending call is
left with a detached reply link); without a receiver nothing is
detached. -/
theorem claim9_notify_detaches_receiver (st : ClientState) (s : String) (p : SecondArg) :
    (st.receiverPresent = true →
      (notify st (.name s) p).actions =
        [Act.detach,
         Act.send { properties := none, headerTtl := none
                    body := .methodCall s (bodyParamsOf p) }] ∧
      (notify st (.name s) p).state.receiverAttached = false ∧
      (notify st (.name s) p).state.requests = st.requests) ∧
    (st.receiverPresent = false →
      hasDetachAct (notify st (.name s) p) = false) := by
  constructor
  · intro h
    have hn : notify st (.name s) p =
        { state := { st with receiverAttached := false }
          actions := [Act.detach,
                      Act.send { properties := none, headerTtl := none
                                 body := .methodCall s (bodyParamsOf p) }]
          thrown := none } := by
      unfold notify
      rw [h]
      simp
    exact ⟨by rw [hn], by rw [hn], by rw [hn]⟩
  · intro h
    have hn : notify st (.name s) p =
        { state := st
          actions := [Act.send { properties := none, headerTtl := none
                                 body := .methodCall s (bodyParamsOf p) }]
          thrown := none } := by
      unfold notify
      rw [h]
      simp
    rw [hn]
    rfl

theorem claim9_notify_detaches_receiver_witness :
    ((notify stPending (.name "ping") .absent).actions =
      [Act.detach,
       Act.send { properties := none, headerTtl := none
                  body := .methodCall "ping" none }] ∧
     (notify stPending (.name "ping") .absent).state.receiverAttached = false ∧
     (notify stPending (.name "ping") .absent).state.requests = stPending.requests) ∧
    hasDetachAct (notify (mkClient { timeout := none, cleanupTimeout := none })
      (.name "ping") .absent) = false := by
  constructor
  · exact (claim9_notify_detaches_receiver stPending "ping" .absent).1 rfl
  · exact (claim9_notify_detaches_receiver
      (mkClient { timeout := none, cleanupTimeout := none }) "ping" .absent).2 rfl

/-- A response arriving for `c1` after its timeout fired. -/
def msgAfterTimeout : Message :=
  { properties := some { correlationId := some "c1" }
    body := .obj (some (.int 7)) none }

/-- A valid interleaving: register `c1`, let its timeout fire, then the
late response arrives, then the cleanup timer fires. -/
def traceLateResponse : List Event :=
  [.doCall "c1" sampleReq, .callTimeoutFire "c1",
   .msgArrive msgAfterTimeout, .cleanupFire "c1"]

/-- C1: a response matched to an entry whose timeout already fired
(`resolve === null`) is only logged and consumed: the handler throws
nothing, performs no `resolve`/`reject` call, and removes the entry; and in
every valid interleaving of the client's handlers, each correlation id's
entry leaves the Pending state at most once (at most one of settlement and
timeout-firing transitions it away from Pending). -/
theorem claim1_timed_out_response_consumed_once :
    (∀ (st : ClientState) (msg : Message) (p : RespProperties) (cid : String) (e : Entry),
      msg.properties = some p → p.correlationId = some cid →
      lookupEntry cid st.requests = some e → e.active = false →
        (processMessage st msg).thrown = none ∧
        (processMessage st msg).actions =
          [Act.detach, Act.logInfo afterTimeoutInfoMsg, Act.logTrace afterTimeoutTraceMsg] ∧
        (processMessage st msg).actions.any isSettleAct = false ∧
        lookupEntry cid (processMessage st msg).state.requests = none) ∧
    (∀ (opts : Options) (cid : String) (tr : List Event),
      validTrace (mkClient opts) tr = true →
      pendingExits (mkClient opts) cid tr ≤ 1) := by
  constructor
  · intro st msg p cid e h1 h2 h3 h4
    have hpm : processMessage st msg =
        { state := { st with receiverAttached := false
                             requests := eraseKey cid st.requests }
          actions := [Act.detach, Act.logInfo afterTimeoutInfoMsg,
                      Act.logTrace afterTimeoutTraceMsg]
          thrown := none } := by
      unfold processMessage
      simp only [h1, h2, h3, h4, eq_self_iff_true, if_true]
    refine ⟨by rw [hpm], by rw [hpm], by rw [hpm]; rfl, ?_⟩
    rw [hpm]
    show lookupEntry cid (eraseKey cid st.requests) = none
    rw [lookupEntry_eraseKey, if_pos rfl]
  · intro opts cid tr hv
    exact pendingExits_le_one (mkClient opts) cid tr (wfState_mkClient opts) hv

theorem claim1_timed_out_response_consumed_once_witness :
    ((processMessage stTimedOut msgAfterTimeout).thrown = none ∧
     (processMessage stTimedOut msgAfterTimeout).actions =
       [Act.detach, Act.logInfo afterTimeoutInfoMsg, Act.logTrace afterTimeoutTraceMsg] ∧
     (processMessage stTimedOut msgAfterTimeout).actions.any isSettleAct = false ∧
     lookupEntry "c1" (processMessage stTimedOut msgAfterTimeout).state.requests = none) ∧
    (validTrace (mkClient { timeout := none, cleanupTimeout := none })
       traceLateResponse = true ∧
     pendingExits (mkClient { timeout := none, cleanupTimeout := none })
       "c1" traceLateResponse ≤ 1) := by
  constructor
  · exact claim1_timed_out_response_consumed_once.1 stTimedOut msgAfterTimeout
      { correlationId := some "c1" } "c1"
      { active := false, timeoutId := true, request := sampleReq }
      rfl rfl (by decide) rfl
  · exact ⟨by decide,
      claim1_timed_out_response_consumed_once.2
        { timeout := none, cleanupTimeout := none } "c1" traceLateResponse (by decide)⟩

/-- The batch-element map of the source, written the way the spec words it:
`result` if present, else `error` if present, else `undefined`. -/
theorem batchElemValue_eq_getD (b : BatchElem) :
    batchElemValue b = b.result.getD (b.error.getD JVal.undefined) := by
  unfold batchElemValue
  cases b.result <;> cases b.error <;> rfl

/-- C4: a batch (array) response for a still-pending request resolves the
promise with the element-wise `result`-or-`error`-or-`undefined` array; no
error element causes a rejection, and the entry is removed. -/
theorem claim4_batch_response_resolves (st : ClientState) (msg : Message)
    (p : RespProperties) (cid : String) (e : Entry) (elems : List BatchElem)
    (h1 : msg.properties = some p) (h2 : p.correlationId = some cid)
    (h3 : lookupEntry cid st.requests = some e) (h4 : e.active = true)
    (h5 : msg.body = .arr elems) :
    (processMessage st msg).thrown = none ∧
    (processMessage st msg).actions =
      [Act.detach] ++ (if e.timeoutId then [Act.cancelTimer cid] else [])
        ++ [Act.resolveReq cid
              (.batch (elems.map fun b => b.result.getD (b.error.getD JVal.undefined)))] ∧
    (processMessage st msg).actions.any isRejectAct = false ∧
    lookupEntry cid (processMessage st msg).state.requests = none := by
  have hact : ¬ (e.active = false) := by rw [h4]; decide
  have hpm : processMessage st msg =
      { state := { st with receiverAttached := false
                           requests := eraseKey cid st.requests }
        actions := [Act.detach] ++ (if e.timeoutId then [Act.cancelTimer cid] else [])
          ++ [Act.resolveReq cid (.batch (elems.map batchElemValue))]
        thrown := none } := by
    unfold processMessage
    simp only [h1, h2, h3, h5, if_neg hact]
  have hmap : elems.map batchElemValue
      = elems.map fun b => b.result.getD (b.error.getD JVal.undefined) :=
    List.map_congr_left fun b _ => batchElemValue_eq_getD b
  refine ⟨by rw [hpm], by rw [hpm, hmap], ?_, ?_⟩
  · rw [hpm]
    cases e.timeoutId <;> rfl
  · rw [hpm]
    show lookupEntry cid (eraseKey cid st.requests) = none
    rw [lookupEntry_eraseKey, if_pos rfl]

/-- A batch response for `c1` whose middle element is an error. -/
def msgBatch : Message :=
  { properties := some { correlationId := some "c1" }
    body := .arr [ { result := some (.int 1), error := none },
                   { result := none, error := some (.str "boom") },
                   { result := none, error := none } ] }

theorem claim4_batch_response_resolves_witness :
    (processMessage stPending msgBatch).thrown = none ∧
    (processMessage stPending msgBatch).actions.any isRejectAct = false ∧
    lookupEntry "c1" (processMessage stPending msgBatch).state.requests = none ∧
    (processMessage stPending msgBatch).actions =
      [Act.detach, Act.cancelTimer "c1",
       Act.resolveReq "c1" (.batch [.int 1, .str "boom", .undefined])] := by
  have h := claim4_batch_response_resolves stPending msgBatch
    { correlationId := some "c1" } "c1"
    { active := true, timeoutId := true, request := sampleReq }
    [ { result := some (.int 1), error := none },
      { result := none, error := some (.str "boom") },
      { result := none, error := none } ]
    rfl rfl (by decide) rfl rfl
  exact ⟨h.1, h.2.2.1, h.2.2.2, by decide⟩

/-- A wire error whose code matches none of the five fixed codes. -/
def unknownCodeErr : WireError := { code := -1, message := "boom", data := some "d" }

/-- C5 counterexample: for an unrecognized code the `switch` falls to
`default: return err` — the wire error object comes back unchanged, not as
a constructed (generic) `ProtocolError` instance. -/
theorem claim5_unrecognized_code_counterexample :
    unknownCodeErr.code ≠ ErrorCode.ParseError ∧
    unknownCodeErr.code ≠ ErrorCode.InvalidRequest ∧
    unknownCodeErr.code ≠ ErrorCode.MethodNotFound ∧
    unknownCodeErr.code ≠ ErrorCode.InvalidParams ∧
    unknownCodeErr.code ≠ ErrorCode.InternalError ∧
    wrapProtocolError unknownCodeErr = .raw unknownCodeErr ∧
    (wrapProtocolError unknownCodeErr).isProtocolInstance = false := by
  decide

/-- C5 (amended): for each of the five fixed codes, `wrapProtocolError`
reconstructs the matching typed protocol error, preserving the wire
error's message and data; for any other code it returns the wire error
object unchanged (no `ProtocolError` instance is constructed). -/
theorem claim5_wrap_reconstructs_typed_errors (err : WireError) :
    (err.code = ErrorCode.ParseError →
      wrapProtocolError err = .inst { kind := .parse, code := ErrorCode.ParseError
                                      message := err.message, data := err.data }) ∧
    (err.code = ErrorCode.InvalidRequest →
      wrapProtocolError err = .inst { kind := .invalidRequest
                                      code := ErrorCode.InvalidRequest
                                      message := err.message, data := err.data }) ∧
    (err.code = ErrorCode.MethodNotFound →
      wrapProtocolError err = .inst { kind := .methodNotFound
                                      code := ErrorCode.MethodNotFound
                                      message := err.message, data := err.data }) ∧
    (err.code = ErrorCode.InvalidParams →
      wrapProtocolError err = .inst { kind := .invalidParams
                                      code := ErrorCode.InvalidParams
                                      message := err.message, data := err.data }) ∧
    (err.code = ErrorCode.InternalError →
      wrapProtocolError err = .inst { kind := .internal
                                      code := ErrorCode.InternalError
                                      message := err.message, data := err.data }) ∧
    (err.code ≠ ErrorCode.ParseError → err.code ≠ ErrorCode.InvalidRequest →
     err.code ≠ ErrorCode.MethodNotFound → err.code ≠ ErrorCode.InvalidParams →
     err.code ≠ ErrorCode.InternalError →
      wrapProtocolError err = .raw err ∧
      (wrapProtocolError err).isProtocolInstance = false) := by
  refine ⟨?_, ?_, ?_, ?_, ?_, ?_⟩
  · intro h
    unfold wrapProtocolError
    rw [if_pos h]
    rfl
  · intro h
    unfold wrapProtocolError
    rw [if_neg (by rw [h]; decide), if_pos h]
    rfl
  · intro h
    unfold wrapProtocolError
    rw [if_neg (by rw [h]; decide), if_neg (by rw [h]; decide), if_pos h]
    rfl
  · intro h
    unfold wrapProtocolError
    rw [if_neg (by rw [h]; decide), if_neg (by rw [h]; decide),
        if_neg (by rw [h]; decide), if_pos h]
    rfl
  · intro h
    unfold wrapProtocolError
    rw [if_neg (by rw [h]; decide), if_neg (by rw [h]; decide),
        if_neg (by rw [h]; decide), if_neg (by rw [h]; decide), if_pos h]
    rfl
  · intro h1 h2 h3 h4 h5
    unfold wrapProtocolError
    rw [if_neg h1, if_neg h2, if_neg h3, if_neg h4, if_neg h5]
    exact ⟨rfl, rfl⟩

theorem claim5_wrap_reconstructs_typed_errors_witness :
    wrapProtocolError { code := -32601, message := "m", data := some "d" } =
      .inst { kind := .methodNotFound, code := ErrorCode.MethodNotFound
              message := "m", data := some "d" } ∧
    wrapProtocolError unknownCodeErr = .raw unknownCodeErr := by
  constructor
  · exact (claim5_wrap_reconstructs_typed_errors
      { code := -32601, message := "m", data := some "d" }).2.2.1 rfl
  · exact ((claim5_wrap_reconstructs_typed_errors unknownCodeErr).2.2.2.2.2
      (by decide) (by decide) (by decide) (by decide) (by decide)).1

/-- Does the notification built by `notify`'s raw path carry a truthy
`replyTo` in its properties (the source's throw condition)? -/
def overridesCarryReplyTo (p : SecondArg) : Bool :=
  match overridesPropsOf p with
  | some props => truthyOptStr props.replyTo
  | none => false

/-- C6 counterexample: `notify` with a raw request and a caller-supplied
overrides object whose properties carry `correlationId = "abc"` throws
nothing and sends a message that does carry a correlation id — refuting
"for every invocation of notify, the sent message carries no
correlationId". -/
theorem claim6_smuggled_correlation_id_counterexample :
    (notify stPending (.raw (.obj "m"))
        (.plainObj (some { replyTo := none, correlationId := some "abc" }) [])).thrown
      = none ∧
    sentProps (notify stPending (.raw (.obj "m"))
        (.plainObj (some { replyTo := none, correlationId := some "abc" }) []))
      = [some { replyTo := none, correlationId := some "abc" }] := by
  decide

/-- C6 (amended): `notify` never adds a registry entry and never invokes
any pending promise's callbacks; the method-name path sends a message with
no `properties` at all (so no correlation id); the raw path throws
`BadRequestError` exactly when the caller-supplied overrides carry a
truthy `properties.replyTo`, and otherwise passes the overrides'
properties — including any caller-supplied correlation id — through to
the sent message unchanged. -/
theorem claim6_notify_never_registers (st : ClientState) (m : MethodArg) (p : SecondArg) :
    (notify st m p).state.requests = st.requests ∧
    (notify st m p).actions.any isSettleAct = false ∧
    (∀ s, m = .name s → sentProps (notify st m p) = [none]) ∧
    (∀ rb, m = .raw rb →
      ((notify st m p).thrown = some (.badRequest "notify must not have a replyTo")
        ↔ overridesCarryReplyTo p = true) ∧
      ((notify st m p).thrown = none →
        sentProps (notify st m p) = [overridesPropsOf p])) := by
  cases m with
  | name s =>
    cases hrp : st.receiverPresent
    · refine ⟨?_, ?_, ?_, ?_⟩
      · simp [notify, hrp]
      · simp [notify, hrp, isSettleAct]
      · intro s' _
        simp [notify, hrp, sentProps]
      · intro rb h
        exact MethodArg.noConfusion h
    · refine ⟨?_, ?_, ?_, ?_⟩
      · simp [notify, hrp]
      · simp [notify, hrp, isSettleAct]
      · intro s' _
        simp [notify, hrp, sentProps]
      · intro rb h
        exact MethodArg.noConfusion h
  | raw rb =>
    rcases hov : overridesPropsOf p with _ | pr
    · refine ⟨?_, ?_, ?_, ?_⟩
      · simp [notify, hov]
      · simp [notify, hov, isSettleAct]
      · intro s h
        exact MethodArg.noConfusion h
      · intro rb' _
        constructor
        · simp [notify, hov, overridesCarryReplyTo]
        · intro _
          simp [notify, hov, sentProps]
    · cases htr : truthyOptStr pr.replyTo
      · refine ⟨?_, ?_, ?_, ?_⟩
        · simp [notify, hov, htr]
        · simp [notify, hov, htr, isSettleAct]
        · intro s h
          exact MethodArg.noConfusion h
        · intro rb' _
          constructor
          · simp [notify, hov, htr, overridesCarryReplyTo]
          · intro _
            simp [notify, hov, htr, sentProps]
      · refine ⟨?_, ?_, ?_, ?_⟩
        · simp [notify, hov, htr]
        · simp [notify, hov, htr, isSettleAct]
        · intro s h
          exact MethodArg.noConfusion h
        · intro rb' _
          constructor
          · simp [notify, hov, htr, overridesCarryReplyTo]
          · intro hth
            simp [notify, hov, htr] at hth
theorem claim6_notify_never_registers_witness :
    ((notify stPending (.raw (.obj "m"))
        (.plainObj (some { replyTo := some "x", correlationId := none }) [])).thrown
      = some (.badRequest "notify must not have a replyTo")) ∧
    (notify stPending (.name "ping") .absent).state.requests = stPending.requests ∧
    sentProps (notify stPending (.name "ping") .absent) = [none] := by
  refine ⟨?_, ?_, ?_⟩
  · exact ((claim6_notify_never_registers stPending (.raw (.obj "m"))
      (.plainObj (some { replyTo := some "x", correlationId := none }) [])).2.2.2
      (.obj "m") rfl).1.mpr (by decide)
  · exact (claim6_notify_never_registers stPending (.name "ping") .absent).1
  · exact (claim6_notify_never_registers stPending (.name "ping") .absent).2.2.1 "ping" rfl

/-- The two `logger.error` messages of `_processMessage` are distinct for
every correlation id. -/
theorem invalid_cid_msg_ne (cid : String) :
    ("invalid correlation-id: " ++ cid) = "message lacks correlation-id" → False := by
  intro h
  have hd := congrArg String.data h
  rw [String.data_append] at hd
  have hL : "invalid correlation-id: ".data = 'i' :: "nvalid correlation-id: ".data := by
    decide
  have hR : "message lacks correlation-id".data
      = 'm' :: "essage lacks correlation-id".data := by
    decide
  rw [hL, hR, List.cons_append] at hd
  have hh : 'i' = 'm' := List.head_eq_of_cons_eq hd
  exact absurd hh (by decide)

/-- C10: `_processMessage` reads `message.properties.correlationId` right
after detaching the receiver: with no `properties` object at all the read
throws a TypeError (the detach has already happened, and the
malformed-message log branch is not reached); the
`message lacks correlation-id` log branch is reached exactly when
`properties` exists but its `correlationId` is `undefined`/`null`, and no
message with a `properties` object makes the handler throw. -/
theorem claim10_properties_access_unguarded (st : ClientState) (msg : Message) :
    (msg.properties = none →
      (processMessage st msg).thrown
          = some (.typeError "cannot read correlationId of undefined") ∧
      (processMessage st msg).actions = [Act.detach]) ∧
    (∀ p, msg.properties = some p → (processMessage st msg).thrown = none) ∧
    (Act.logError "message lacks correlation-id" ∈ (processMessage st msg).actions
      ↔ ∃ p, msg.properties = some p ∧ p.correlationId = none) := by
  rcases msg with ⟨props, body⟩
  rcases props with _ | p
  · refine ⟨fun _ => ⟨rfl, rfl⟩, ?_, ?_⟩
    · intro p hp
      exact Option.noConfusion hp
    · constructor
      · intro hmem
        simp [processMessage] at hmem
      · rintro ⟨p, hp, _⟩
        exact Option.noConfusion hp
  · rcases p with ⟨corr⟩
    rcases corr with _ | cid
    · refine ⟨fun h => Option.noConfusion h, fun p _ => rfl, ?_⟩
      constructor
      · intro _
        exact ⟨{ correlationId := none }, rfl, rfl⟩
      · intro _
        simp [processMessage]
    · refine ⟨fun h => Option.noConfusion h, fun p _ => ?_, ?_⟩
      · rcases hl : lookupEntry cid st.requests with _ | entry
        · simp [processMessage, hl]
        · by_cases ha : entry.active = false
          · simp [processMessage, hl, ha]
          · simp [processMessage, hl, ha]
      · constructor
        · intro hmem
          exfalso
          rcases hl : lookupEntry cid st.requests with _ | entry
          · simp [processMessage, hl] at hmem
            exact invalid_cid_msg_ne cid hmem.symm
          · by_cases ha : entry.active = false
            · simp [processMessage, hl, ha] at hmem
            · rcases body with elems | ⟨res, err⟩
              · cases htid : entry.timeoutId <;>
                  simp [processMessage, hl, ha, htid] at hmem
              · rcases res with _ | v
                · rcases err with _ | werr
                  · cases htid : entry.timeoutId <;>
                      simp [processMessage, hl, ha, htid] at hmem
                  · cases htid : entry.timeoutId <;>
                      simp [processMessage, hl, ha, htid] at hmem
                · cases htid : entry.timeoutId <;>
                    simp [processMessage, hl, ha, htid] at hmem
        · rintro ⟨p, hp, hc⟩
          have hpe : { correlationId := some cid } = p := by
            injection hp
          rw [← hpe] at hc
          exact Option.noConfusion hc

/-- A delivered message with no `properties` object at all. -/
def msgNoProps : Message := { properties := none, body := .obj none none }

/-- A delivered message whose `properties` lack a correlation id. -/
def msgNoCorr : Message :=
  { properties := some { correlationId := none }, body := .obj none none }

theorem claim10_properties_access_unguarded_witness :
    ((processMessage stPending msgNoProps).thrown
        = some (.typeError "cannot read correlationId of undefined") ∧
     (processMessage stPending msgNoProps).actions = [Act.detach]) ∧
    (processMessage stPending msgBatch).thrown = none ∧
    Act.logError "message lacks correlation-id" ∈ (processMessage stPending msgNoCorr).actions := by
  refine ⟨?_, ?_, ?_⟩
  · exact (claim10_properties_access_unguarded stPending msgNoProps).1 rfl
  · exact (claim10_properties_access_unguarded stPending msgBatch).2.1
      { correlationId := some "c1" } rfl
  · exact (claim10_properties_access_unguarded stPending msgNoCorr).2.2.mpr
      ⟨{ correlationId := none }, rfl, rfl⟩
